import Mathlib

/-!
Verification development for the Assefa Digital Bingo WebSocket relay
(`src/server.ts`, with the Deno-Deploy variant in `src/unnamed/part_000`).

The embedding models the server's global mutable state (`clients`, `rooms`,
`clientRooms`, `rateLimits`, all JS `Map`s keyed by strings) as association
lists, JS `Set`s of client ids as duplicate-free lists, and each stateful
handler as a pure function from state to state paired with the list of
frames it sends, in send order.  A send is a pair of the recipient's
connection id and the frame.  `Date`-valued fields (`joinedAt`, the
`timestamp` fields of frames) are environment inputs orthogonal to the
routing and membership logic the claims are about, and are omitted from
the frame model; the rate limiter, whose logic does depend on time, takes
the current time explicitly as a natural number of milliseconds.
JS numbers carried in payloads (`message.number`, `winAmount`) are
modelled as exact rationals: every comparison the code performs on them
(`< 1`, `> 90`, equality) is exact on the floating-point values involved,
so rational semantics coincide with the source's on these payloads.
-/

set_option maxRecDepth 8192

/-- JS `Map.get`: first binding of the key in the association list. -/
def listGet {α : Type} (m : List (String × α)) (k : String) : Option α :=
  match m with
  | [] => none
  | (k', v) :: rest => if k' = k then some v else listGet rest k

/-- JS `Map.set`: replace the binding of the key, or append a fresh one. -/
def listSet {α : Type} (m : List (String × α)) (k : String) (v : α) :
    List (String × α) :=
  match m with
  | [] => [(k, v)]
  | (k', v') :: rest =>
      if k' = k then (k, v) :: rest else (k', v') :: listSet rest k v

/-- JS `Map.delete`: drop every binding of the key. -/
def listErase {α : Type} (m : List (String × α)) (k : String) :
    List (String × α) :=
  match m with
  | [] => []
  | (k', v) :: rest =>
      if k' = k then listErase rest k else (k', v) :: listErase rest k

/-- JS `Set.add` on a duplicate-free list: append the element if absent. -/
def setAdd (l : List String) (x : String) : List String :=
  if x ∈ l then l else l ++ [x]

/-- JS string truthiness for `x || d`: `null`/`undefined`/`""` fall back. -/
def orElseStr (x : Option String) (d : String) : String :=
  match x with
  | some s => if s = "" then d else s
  | none => d

-- ================ sanitizeInput (src/server.ts lines 50-56) ================

/-- Expansion of one character under the chain of global single-character
replacements in `sanitizeInput` (`<` to `&lt;`, `>` to `&gt;`, `"` to
`&quot;`, the apostrophe to `&#x27;`).  The chained `.replace` calls of the
source equal this per-character expansion because no replacement string
contains a character replaced by a later link of the chain.  The
double-quote and apostrophe characters are written via `Char.ofNat`
(code points 34 and 39). -/
def escapeChar (c : Char) : List Char :=
  if c = '<' then "&lt;".data
  else if c = '>' then "&gt;".data
  else if c = Char.ofNat 34 then "&quot;".data
  else if c = Char.ofNat 39 then "&#x27;".data
  else [c]

def sanitizeChars (l : List Char) : List Char :=
  l.flatMap escapeChar

/-- Model of `sanitizeInput` of src/server.ts: HTML-escape the four active
characters. -/
def sanitizeInput (input : String) : String :=
  String.mk (sanitizeChars input.data)

/-- UTF-16 code units contributed by one Unicode scalar value: scalars
above U+FFFF are encoded as a surrogate pair (2 units), the rest as a
single unit.  JS `String.prototype.length` counts code units, not
scalars. -/
def utf16Len (c : Char) : Nat :=
  if c.toNat < 65536 then 1 else 2

/-- JS `String.prototype.length` of a string of Unicode scalars: the sum
of the UTF-16 code units of its characters. -/
def utf16Length (t : String) : Nat :=
  (t.data.map utf16Len).sum

-- ================ Data model (src/server.ts lines 13-43) ================

/-- The `Client` interface, minus the raw socket handle: the socket is
represented by its `readyState` (`true` iff `WebSocket.OPEN`), the only
socket datum the routing logic reads. -/
structure Client where
  userId : String
  name : String
  room : String
  role : String
  readyState : Bool
  deriving DecidableEq, Repr

/-- One rate-limit bucket: `{ count, resetTime }` (ms). -/
structure RateLimitEntry where
  count : Nat
  resetTime : Nat
  deriving DecidableEq, Repr

/-- The element shape produced by `getRoomUsers` (`joinedAt` omitted, see
module comment). -/
structure UserInfo where
  userId : String
  name : String
  role : String
  deriving DecidableEq, Repr

/-- The four global maps of src/server.ts lines 40-43. -/
structure ServerState where
  clients : List (String × Client)
  rooms : List (String × List String)
  clientRooms : List (String × String)
  rateLimits : List (String × RateLimitEntry)
  deriving DecidableEq, Repr

def initialState : ServerState := ⟨[], [], [], []⟩

/-- Outbound frames, discriminated exactly as the JSON objects the server
sends (timestamps omitted).  Signaling frames spread the inbound message
and add `from`; the model keeps their `type`, `target` and the added
`from`. -/
inductive Frame where
  | welcome (message : String) (userId : String)
  | userJoined (userId : String) (name : String) (users : List UserInfo)
  | userLeft (userId : String) (name : String) (users : List UserInfo)
  | pong
  | bingoNumber (number : Rat) (calledBy : String)
  | winner (userId : String) (userName : String) (winAmount : Rat)
  | chat (userId : String) (userName : String) (message : String)
  | usersList (users : List UserInfo)
  | signal (sigType : String) (target : Option String) (fromId : String)
  | error (message : String)
  deriving DecidableEq, Repr

/-- The `type` tag the frame is serialized with. -/
def frameType : Frame → String
  | .welcome _ _ => "welcome"
  | .userJoined _ _ _ => "user-joined"
  | .userLeft _ _ _ => "user-left"
  | .pong => "pong"
  | .bingoNumber _ _ => "bingo-number"
  | .winner _ _ _ => "winner"
  | .chat _ _ _ => "chat"
  | .usersList _ => "users"
  | .signal t _ _ => t
  | .error _ => "error"

/-- A send: recipient connection id paired with the frame. -/
abbrev Send := String × Frame

/-- The dynamic `number` field of an inbound message: either a JS number
(exact rational) or anything that fails `typeof number === "number"`
(absent, string, boolean, ...). -/
inductive NumberVal where
  | num (q : Rat)
  | notNum
  deriving DecidableEq, Repr

/-- Inbound `WebSocketMessage`: mandatory `type` plus the dynamic fields
the handlers read. -/
structure WebSocketMessage where
  type : String
  number : NumberVal := .notNum
  target : Option String := none
  message : Option String := none
  winAmount : Option Rat := none
  deriving DecidableEq, Repr

-- ================ Registry / Directory helpers ================

/-- Member-id list of a room, `[]` when the room is absent. -/
def memberList (s : ServerState) (room : String) : List String :=
  (listGet s.rooms room).getD []

/-- Whether a connection id resolves to a registered client with an open
socket — the guard of each broadcast send. -/
def openRegistered (s : ServerState) (cid : String) : Bool :=
  match listGet s.clients cid with
  | some c => c.readyState
  | none => false

/-- Model of `broadcastToRoom` (src/server.ts lines 331-347): one send attempt per
member of the room, skipping `excludeClientId`, dropping members whose
client entry is missing or whose socket is not open. -/
def broadcastToRoom (s : ServerState) (room : String)
    (excludeClientId : Option String) (msg : Frame) : List Send :=
  match listGet s.rooms room with
  | none => []
  | some members =>
      members.filterMap (fun cid =>
        if some cid = excludeClientId then none
        else
          match listGet s.clients cid with
          | some client =>
              if client.readyState then some (cid, msg) else none
          | none => none)

/-- Model of `getRoomUsers` (src/server.ts lines 349-366). -/
def getRoomUsers (s : ServerState) (room : String) : List UserInfo :=
  match listGet s.rooms room with
  | none => []
  | some members =>
      members.filterMap (fun cid =>
        match listGet s.clients cid with
        | some client => some ⟨client.userId, client.name, client.role⟩
        | none => none)

-- ================ Lifecycle (join / disconnect) ================

/-- The state mutation and `onopen` sends of `handleWebSocket`
(src/server.ts lines 92-149): sanitize the query parameters (with their
defaults), store the client, create the room on first join, add the id to
the room's member set, record the reverse mapping, then send `welcome` to
the new connection and `user-joined` (with the current roster) to every
other room member. -/
def handleWebSocketJoin (s : ServerState) (clientId : String)
    (nameParam roomParam roleParam : Option String) : ServerState × List Send :=
  let name := sanitizeInput (orElseStr nameParam "Anonymous")
  let room := sanitizeInput (orElseStr roomParam "bingo_main")
  let role := sanitizeInput (orElseStr roleParam "player")
  let client : Client := ⟨clientId, name, room, role, true⟩
  let s1 : ServerState := { s with clients := listSet s.clients clientId client }
  let s2 : ServerState :=
    if (listGet s1.rooms room).isSome then s1
    else { s1 with rooms := listSet s1.rooms room [] }
  let s3 : ServerState :=
    { s2 with rooms :=
        listSet s2.rooms room (setAdd ((listGet s2.rooms room).getD []) clientId) }
  let s4 : ServerState :=
    { s3 with clientRooms := listSet s3.clientRooms clientId room }
  let sends :=
    (clientId, Frame.welcome ("Welcome to " ++ room ++ "!") clientId) ::
      broadcastToRoom s4 room (some clientId)
        (Frame.userJoined clientId name (getRoomUsers s4 room))
  (s4, sends)

/-- Model of `handleClientDisconnect` (src/server.ts lines 302-329): no-op for an
unknown id; otherwise remove the id from its room's member set (deleting
the room if it empties), delete the registry and reverse-map entries, and
broadcast `user-left` with the updated roster to the remaining members. -/
def handleClientDisconnect (s : ServerState) (clientId : String) :
    ServerState × List Send :=
  match listGet s.clients clientId with
  | none => (s, [])
  | some client =>
      let room := client.room
      let s1 : ServerState :=
        match listGet s.rooms room with
        | none => s
        | some members =>
            let members' := members.filter (fun m => m != clientId)
            if members'.isEmpty then { s with rooms := listErase s.rooms room }
            else { s with rooms := listSet s.rooms room members' }
      let s2 : ServerState :=
        { s1 with clients := listErase s1.clients clientId,
                  clientRooms := listErase s1.clientRooms clientId }
      let sends :=
        broadcastToRoom s2 room none
          (Frame.userLeft clientId client.name (getRoomUsers s2 room))
      (s2, sends)

-- ================ Message router (src/server.ts lines 176-300) ================

/-- Model of `handleBingoNumber` (src/server.ts lines 218-237). -/
def handleBingoNumber (s : ServerState) (client : Client)
    (msg : WebSocketMessage) : List Send :=
  match msg.number with
  | .notNum => [(client.userId, Frame.error "Invalid bingo number")]
  | .num number =>
      if number < 1 ∨ number > 90 then
        [(client.userId, Frame.error "Invalid bingo number")]
      else
        broadcastToRoom s client.room (some client.userId)
          (Frame.bingoNumber number client.name)

/-- Model of `handleWinner` (src/server.ts lines 239-250): broadcast with no
exclusion; `winAmount || 0` falls back to `0` when absent (and `0`
stays `0`). -/
def handleWinner (s : ServerState) (client : Client)
    (msg : WebSocketMessage) : List Send :=
  broadcastToRoom s client.room none
    (Frame.winner client.userId client.name (msg.winAmount.getD 0))

/-- Model of `handleRTCSignaling` (src/server.ts lines 252-271): `target =
"broadcast"` fans out to the room minus the sender; a truthy specific
target is a direct send (no readyState check) iff the target is registered
in the sender's room; a falsy target (`undefined` or `""`) sends
nothing. -/
def handleRTCSignaling (s : ServerState) (client : Client)
    (msg : WebSocketMessage) : List Send :=
  match msg.target with
  | none => []
  | some target =>
      if target = "broadcast" then
        broadcastToRoom s client.room (some client.userId)
          (Frame.signal msg.type (some target) client.userId)
      else if target = "" then []
      else
        match listGet s.clients target with
        | some targetClient =>
            if targetClient.room = client.room then
              [(target, Frame.signal msg.type (some target) client.userId)]
            else []
        | none => []

/-- Model of `handleChatMessage` (src/server.ts lines 273-291): sanitize
`message.message || ""`, reject when the sanitized text's JS `.length`
(UTF-16 code units, `utf16Length` here) exceeds 500, otherwise broadcast
to the whole room (no exclusion). -/
def handleChatMessage (s : ServerState) (client : Client)
    (msg : WebSocketMessage) : List Send :=
  let chatMessage := sanitizeInput (orElseStr msg.message "")
  if utf16Length chatMessage > 500 then
    [(client.userId, Frame.error "Message too long")]
  else
    broadcastToRoom s client.room none
      (Frame.chat client.userId client.name chatMessage)

/-- Model of `sendRoomUsers` (src/server.ts lines 293-300). -/
def sendRoomUsers (s : ServerState) (client : Client) : List Send :=
  [(client.userId, Frame.usersList (getRoomUsers s client.room))]

/-- Model of `handleWebSocketMessage` (src/server.ts lines 176-216): look the
sender up, drop the event silently when absent, else dispatch on
`message.type`.  None of the handlers mutates the maps, so the state
passes through unchanged; it is returned to make that explicit. -/
def handleWebSocketMessage (s : ServerState) (clientId : String)
    (msg : WebSocketMessage) : ServerState × List Send :=
  match listGet s.clients clientId with
  | none => (s, [])
  | some client =>
      if msg.type = "ping" then (s, [(clientId, Frame.pong)])
      else if msg.type = "join" then (s, [])
      else if msg.type = "bingo-number" then (s, handleBingoNumber s client msg)
      else if msg.type = "winner" then (s, handleWinner s client msg)
      else if msg.type = "offer" ∨ msg.type = "answer" ∨
              msg.type = "ice-candidate" then
        (s, handleRTCSignaling s client msg)
      else if msg.type = "chat" then (s, handleChatMessage s client msg)
      else if msg.type = "get-users" then (s, sendRoomUsers s client)
      else (s, [])

-- ================ Rate limiter (src/server.ts lines 63-83) ================

/-- Model of `isRateLimited`: `true` means the request is rejected.  Fresh or
expired buckets are replaced by `{ count: 1, resetTime: now + 60000 }`;
within the window the call is rejected without increment once the count
has reached 100, and otherwise admitted with the count incremented. -/
def isRateLimited (rl : List (String × RateLimitEntry)) (ip : String)
    (now : Nat) : Bool × List (String × RateLimitEntry) :=
  match listGet rl ip with
  | none => (false, listSet rl ip ⟨1, now + 60000⟩)
  | some limit =>
      if limit.resetTime < now then
        (false, listSet rl ip ⟨1, now + 60000⟩)
      else if 100 ≤ limit.count then
        (true, rl)
      else
        (false, listSet rl ip ⟨limit.count + 1, limit.resetTime⟩)

/-- Run a sequence of admission calls for one origin, collecting each
call's rejection flag. -/
def runCalls (rl : List (String × RateLimitEntry)) (ip : String) :
    List Nat → List Bool × List (String × RateLimitEntry)
  | [] => ([], rl)
  | t :: ts =>
      let step := isRateLimited rl ip t
      let rest := runCalls step.2 ip ts
      (step.1 :: rest.1, rest.2)

-- ================ Operation sequences ================

/-- The two state-changing operations of the lifecycle. -/
inductive ServerOp where
  | join (clientId : String) (nameParam roomParam roleParam : Option String)
  | disconnect (clientId : String)
  deriving DecidableEq, Repr

def applyOp (s : ServerState) : ServerOp → ServerState
  | .join cid n r rl => (handleWebSocketJoin s cid n r rl).1
  | .disconnect cid => (handleClientDisconnect s cid).1

def applyOps (s : ServerState) (ops : List ServerOp) : ServerState :=
  ops.foldl applyOp s

/-- Every join of the sequence uses a connection id not currently
registered — the id-generation policy of `generateClientId` (ids are
never reused while the process runs). -/
def freshSeq (s : ServerState) : List ServerOp → Bool
  | [] => true
  | op :: rest =>
      (match op with
       | .join cid _ _ _ => (listGet s.clients cid).isNone
       | .disconnect _ => true) && freshSeq (applyOp s op) rest

-- ================ Association-list lemmas ================

theorem listGet_listSet_self {α : Type} (m : List (String × α)) (k : String)
    (v : α) : listGet (listSet m k v) k = some v := by
  induction m with
  | nil => simp [listGet, listSet]
  | cons p rest ih =>
      obtain ⟨a, b⟩ := p
      by_cases h : a = k
      · simp [listSet, listGet, h]
      · simp [listSet, listGet, h, ih]

theorem listGet_listSet_ne {α : Type} (m : List (String × α)) {k k' : String}
    (v : α) (h : k' ≠ k) : listGet (listSet m k v) k' = listGet m k' := by
  induction m with
  | nil =>
      simp only [listSet, listGet]
      rw [if_neg (fun hk => h hk.symm)]
  | cons p rest ih =>
      obtain ⟨a, b⟩ := p
      by_cases hp : a = k
      · subst hp
        simp only [listSet, if_pos rfl, listGet]
        rw [if_neg (fun hk => h hk.symm), if_neg (fun hk => h hk.symm)]
      · simp only [listSet, if_neg hp, listGet]
        by_cases hp' : a = k'
        · rw [if_pos hp', if_pos hp']
        · rw [if_neg hp', if_neg hp', ih]

theorem listSet_listSet_self {α : Type} (m : List (String × α)) (k : String)
    (v w : α) : listSet (listSet m k v) k w = listSet m k w := by
  induction m with
  | nil => simp [listSet]
  | cons p rest ih =>
      obtain ⟨a, b⟩ := p
      by_cases h : a = k
      · simp [listSet, h]
      · simp [listSet, h, ih]

theorem listGet_listErase_self {α : Type} (m : List (String × α))
    (k : String) : listGet (listErase m k) k = none := by
  induction m with
  | nil => rfl
  | cons p rest ih =>
      obtain ⟨a, b⟩ := p
      by_cases h : a = k
      · simp [listErase, h, ih]
      · simp [listErase, listGet, h, ih]

theorem listGet_listErase_ne {α : Type} (m : List (String × α))
    {k k' : String} (h : k' ≠ k) :
    listGet (listErase m k) k' = listGet m k' := by
  induction m with
  | nil => rfl
  | cons p rest ih =>
      obtain ⟨a, b⟩ := p
      have hkk' : ¬k = k' := fun hk => h hk.symm
      by_cases hp : a = k
      · simp [listErase, listGet, hp, hkk', ih]
      · by_cases hp' : a = k'
        · simp [listErase, listGet, hp, hp', h]
        · simp [listErase, listGet, hp, hp', ih]

-- ================ setAdd lemmas ================

theorem mem_setAdd {l : List String} {x y : String} :
    y ∈ setAdd l x ↔ y = x ∨ y ∈ l := by
  by_cases h : x ∈ l
  · simp only [setAdd, if_pos h]
    constructor
    · exact Or.inr
    · rintro (rfl | hy)
      · exact h
      · exact hy
  · simp [setAdd, if_neg h, or_comm]

theorem setAdd_ne_nil (l : List String) (x : String) : setAdd l x ≠ [] := by
  by_cases h : x ∈ l
  · simp only [setAdd, if_pos h]
    rintro rfl
    exact absurd h (List.not_mem_nil x)
  · simp [setAdd, if_neg h]

theorem nodup_setAdd {l : List String} (h : l.Nodup) (x : String) :
    (setAdd l x).Nodup := by
  by_cases hx : x ∈ l
  · simpa [setAdd, if_pos hx] using h
  · simp [setAdd, if_neg hx, List.nodup_append, h, hx]

-- ================ Broadcast lemmas ================

/-- The per-member send guard of `broadcastToRoom`: not the excluded id,
and resolving to a registered client with an open socket. -/
def broadcastGuard (s : ServerState) (excludeClientId : Option String)
    (cid : String) : Bool :=
  if some cid = excludeClientId then false else openRegistered s cid

theorem filterMap_guard {α β : Type} (p : α → Bool) (g : α → β) (l : List α) :
    (l.filterMap fun a => if p a then some (g a) else none) =
      (l.filter p).map g := by
  induction l with
  | nil => rfl
  | cons a l ih =>
      by_cases h : p a
      · simp [List.filterMap_cons, List.filter_cons, h, ih]
      · simp [List.filterMap_cons, List.filter_cons, h, ih]

theorem broadcastToRoom_eq (s : ServerState) (room : String)
    (ex : Option String) (msg : Frame) :
    broadcastToRoom s room ex msg =
      ((memberList s room).filter (broadcastGuard s ex)).map
        (fun cid => (cid, msg)) := by
  have hfn : (fun cid =>
      if some cid = ex then none
      else
        match listGet s.clients cid with
        | some client =>
            if client.readyState then some (cid, msg) else none
        | none => none) =
      (fun cid : String =>
        if broadcastGuard s ex cid then some (cid, msg) else none) := by
    funext cid
    by_cases hex : some cid = ex
    · simp [broadcastGuard, hex]
    · simp only [broadcastGuard, if_neg hex, openRegistered]
      cases h : listGet s.clients cid with
      | none => simp
      | some client => by_cases hr : client.readyState <;> simp [hr]
  cases h : listGet s.rooms room with
  | none => simp [broadcastToRoom, memberList, h]
  | some members =>
      simp only [broadcastToRoom, memberList, h, Option.getD_some]
      rw [hfn]
      exact filterMap_guard _ _ members

theorem mem_broadcastToRoom {s : ServerState} {room : String}
    {ex : Option String} {msg : Frame} {p : Send} :
    p ∈ broadcastToRoom s room ex msg ↔
      p.2 = msg ∧ p.1 ∈ memberList s room ∧ broadcastGuard s ex p.1 = true := by
  rw [broadcastToRoom_eq]
  constructor
  · intro hp
    obtain ⟨cid, hcid, rfl⟩ := List.mem_map.mp hp
    have hm := List.mem_filter.mp hcid
    exact ⟨rfl, hm.1, hm.2⟩
  · rintro ⟨h2, h1, hg⟩
    apply List.mem_map.mpr
    refine ⟨p.1, List.mem_filter.mpr ⟨h1, hg⟩, ?_⟩
    rw [← h2]

theorem frames_broadcastToRoom {s : ServerState} {room : String}
    {ex : Option String} {msg : Frame} :
    ∀ p ∈ broadcastToRoom s room ex msg, p.2 = msg := by
  intro p hp
  exact (mem_broadcastToRoom.mp hp).1

theorem count_map_pair (l : List String) (msg : Frame) (rid : String) :
    ((l.map fun cid => (cid, msg)).count (rid, msg)) = l.count rid := by
  induction l with
  | nil => rfl
  | cons a l ih =>
      by_cases h : rid = a
      · subst h
        simp [List.count_cons, ih]
      · simp [List.count_cons, h, ih, Prod.ext_iff]

theorem count_broadcastToRoom {s : ServerState} {room : String}
    {ex : Option String} {msg : Frame}
    (hnd : (memberList s room).Nodup) (rid : String) :
    (broadcastToRoom s room ex msg).count (rid, msg) =
      if rid ∈ memberList s room ∧ broadcastGuard s ex rid = true then 1
      else 0 := by
  rw [broadcastToRoom_eq, count_map_pair]
  by_cases h : rid ∈ memberList s room ∧ broadcastGuard s ex rid = true
  · rw [if_pos h]
    exact List.count_eq_one_of_mem (hnd.filter _)
      (List.mem_filter.mpr ⟨h.1, h.2⟩)
  · rw [if_neg h]
    refine List.count_eq_zero.mpr (fun hc => h ?_)
    have hm := List.mem_filter.mp hc
    exact ⟨hm.1, hm.2⟩

-- ================ sanitizeInput lemmas ================

/-- A character is "special" when `sanitizeInput` replaces it. -/
def specialChar (c : Char) : Prop :=
  c = '<' ∨ c = '>' ∨ c = Char.ofNat 34 ∨ c = Char.ofNat 39

instance (c : Char) : Decidable (specialChar c) := by
  unfold specialChar
  infer_instance

theorem not_special_of_mem_escapeChar {c c' : Char}
    (h : c' ∈ escapeChar c) : ¬specialChar c' := by
  unfold escapeChar at h
  by_cases h1 : c = '<'
  · rw [if_pos h1] at h
    have hd : "&lt;".data = ['&', 'l', 't', ';'] := rfl
    rw [hd] at h
    simp only [List.mem_cons, List.not_mem_nil, or_false] at h
    rcases h with rfl | rfl | rfl | rfl <;> decide
  · rw [if_neg h1] at h
    by_cases h2 : c = '>'
    · rw [if_pos h2] at h
      have hd : "&gt;".data = ['&', 'g', 't', ';'] := rfl
      rw [hd] at h
      simp only [List.mem_cons, List.not_mem_nil, or_false] at h
      rcases h with rfl | rfl | rfl | rfl <;> decide
    · rw [if_neg h2] at h
      by_cases h3 : c = Char.ofNat 34
      · rw [if_pos h3] at h
        have hd : "&quot;".data = ['&', 'q', 'u', 'o', 't', ';'] := rfl
        rw [hd] at h
        simp only [List.mem_cons, List.not_mem_nil, or_false] at h
        rcases h with rfl | rfl | rfl | rfl | rfl | rfl <;> decide
      · rw [if_neg h3] at h
        by_cases h4 : c = Char.ofNat 39
        · rw [if_pos h4] at h
          have hd : "&#x27;".data = ['&', '#', 'x', '2', '7', ';'] := rfl
          rw [hd] at h
          simp only [List.mem_cons, List.not_mem_nil, or_false] at h
          rcases h with rfl | rfl | rfl | rfl | rfl | rfl <;> decide
        · rw [if_neg h4] at h
          simp only [List.mem_singleton] at h
          subst h
          intro hs
          rcases hs with hc | hc | hc | hc
          · exact h1 hc
          · exact h2 hc
          · exact h3 hc
          · exact h4 hc

theorem escapeChar_of_not_special {c : Char} (h : ¬specialChar c) :
    escapeChar c = [c] := by
  unfold escapeChar
  rw [if_neg (fun hc => h (Or.inl hc)),
      if_neg (fun hc => h (Or.inr (Or.inl hc))),
      if_neg (fun hc => h (Or.inr (Or.inr (Or.inl hc)))),
      if_neg (fun hc => h (Or.inr (Or.inr (Or.inr hc))))]

theorem sanitizeChars_fixed {l : List Char}
    (h : ∀ c ∈ l, ¬specialChar c) : sanitizeChars l = l := by
  induction l with
  | nil => rfl
  | cons a l ih =>
      have ha := escapeChar_of_not_special (h a (List.mem_cons_self a l))
      have hl := ih (fun c hc => h c (List.mem_cons_of_mem a hc))
      simp [sanitizeChars, List.flatMap_cons, ha,
        show l.flatMap escapeChar = l from hl]

theorem not_special_of_mem_sanitizeChars {l : List Char} {c : Char}
    (h : c ∈ sanitizeChars l) : ¬specialChar c := by
  unfold sanitizeChars at h
  obtain ⟨a, _, hmem⟩ := List.mem_flatMap.mp h
  exact not_special_of_mem_escapeChar hmem

theorem sanitizeChars_idem (l : List Char) :
    sanitizeChars (sanitizeChars l) = sanitizeChars l :=
  sanitizeChars_fixed (fun _ hc => not_special_of_mem_sanitizeChars hc)

theorem one_le_length_escapeChar (c : Char) : 1 ≤ (escapeChar c).length := by
  unfold escapeChar
  by_cases h1 : c = '<'
  · simp [h1]
  · rw [if_neg h1]
    by_cases h2 : c = '>'
    · simp [h2]
    · rw [if_neg h2]
      by_cases h3 : c = Char.ofNat 34
      · simp [h3]
      · rw [if_neg h3]
        by_cases h4 : c = Char.ofNat 39
        · simp [h4]
        · rw [if_neg h4]
          simp

theorem length_le_length_sanitizeChars (l : List Char) :
    l.length ≤ (sanitizeChars l).length := by
  induction l with
  | nil => simp [sanitizeChars]
  | cons a l ih =>
      unfold sanitizeChars at ih ⊢
      simp only [List.flatMap_cons, List.length_append, List.length_cons]
      have := one_le_length_escapeChar a
      omega

theorem sanitizeInput_idem (t : String) :
    sanitizeInput (sanitizeInput t) = sanitizeInput t := by
  unfold sanitizeInput
  rw [show (String.mk (sanitizeChars t.data)).data = sanitizeChars t.data
    from rfl, sanitizeChars_idem]

theorem length_le_length_sanitizeInput (t : String) :
    t.length ≤ (sanitizeInput t).length := by
  unfold sanitizeInput
  rw [show (String.mk (sanitizeChars t.data)).length
      = (sanitizeChars t.data).length from rfl,
    show t.length = t.data.length from rfl]
  exact length_le_length_sanitizeChars t.data

theorem utf16Len_le_sum_escapeChar (c : Char) :
    utf16Len c ≤ ((escapeChar c).map utf16Len).sum := by
  by_cases h1 : c = '<'
  · subst h1
    decide
  · by_cases h2 : c = '>'
    · subst h2
      decide
    · by_cases h3 : c = Char.ofNat 34
      · subst h3
        decide
      · by_cases h4 : c = Char.ofNat 39
        · subst h4
          decide
        · have hns : ¬specialChar c := by
            intro hs
            rcases hs with hc | hc | hc | hc
            · exact h1 hc
            · exact h2 hc
            · exact h3 hc
            · exact h4 hc
          rw [escapeChar_of_not_special hns]
          simp

theorem utf16Length_le_sanitizeChars (l : List Char) :
    (l.map utf16Len).sum ≤ ((sanitizeChars l).map utf16Len).sum := by
  induction l with
  | nil => simp [sanitizeChars]
  | cons a l ih =>
      unfold sanitizeChars at ih ⊢
      simp only [List.flatMap_cons, List.map_cons, List.map_append,
        List.sum_cons, List.sum_append]
      have := utf16Len_le_sum_escapeChar a
      omega

theorem utf16Length_le_sanitizeInput (t : String) :
    utf16Length t ≤ utf16Length (sanitizeInput t) := by
  unfold utf16Length sanitizeInput
  exact utf16Length_le_sanitizeChars t.data

-- ================ Join normalization ================

theorem handleWebSocketJoin_fst (s : ServerState) (clientId : String)
    (nameParam roomParam roleParam : Option String) :
    (handleWebSocketJoin s clientId nameParam roomParam roleParam).1 =
      { clients := listSet s.clients clientId
          ⟨clientId, sanitizeInput (orElseStr nameParam "Anonymous"),
           sanitizeInput (orElseStr roomParam "bingo_main"),
           sanitizeInput (orElseStr roleParam "player"), true⟩,
        rooms := listSet s.rooms (sanitizeInput (orElseStr roomParam "bingo_main"))
          (setAdd (memberList s (sanitizeInput (orElseStr roomParam "bingo_main")))
            clientId),
        clientRooms := listSet s.clientRooms clientId
          (sanitizeInput (orElseStr roomParam "bingo_main")),
        rateLimits := s.rateLimits } := by
  unfold handleWebSocketJoin
  cases h : listGet s.rooms (sanitizeInput (orElseStr roomParam "bingo_main")) with
  | some members => simp [h, memberList]
  | none => simp [h, memberList, listGet_listSet_self, listSet_listSet_self]

-- ================ Registry/Directory consistency (claim C1) ================

/-- Bidirectional Registry-Directory consistency: every member id of every
room resolves to a registered client whose `room` field names that room,
and every registered client's `room` names a room whose member set
contains the client's id. -/
def Consistent (s : ServerState) : Prop :=
  (∀ r members cid, listGet s.rooms r = some members → cid ∈ members →
      ∃ c, listGet s.clients cid = some c ∧ c.room = r) ∧
  (∀ cid c, listGet s.clients cid = some c →
      ∃ members, listGet s.rooms c.room = some members ∧ cid ∈ members)

theorem consistent_initialState : Consistent initialState := by
  constructor
  · intro r members cid hr
    simp [initialState, listGet] at hr
  · intro cid c hc
    simp [initialState, listGet] at hc
theorem consistent_join_aux (s : ServerState) (hC : Consistent s)
    (clientId nm room rl : String)
    (hfresh : listGet s.clients clientId = none) :
    Consistent
      { clients := listSet s.clients clientId ⟨clientId, nm, room, rl, true⟩,
        rooms := listSet s.rooms room (setAdd (memberList s room) clientId),
        clientRooms := listSet s.clientRooms clientId room,
        rateLimits := s.rateLimits } := by
  obtain ⟨h1, h2⟩ := hC
  constructor
  · intro rr members id hr hid
    by_cases hrr : rr = room
    · subst hrr
      rw [listGet_listSet_self] at hr
      obtain rfl := Option.some.inj hr
      rcases mem_setAdd.mp hid with rfl | hmem
      · exact ⟨_, listGet_listSet_self _ _ _, rfl⟩
      · cases hm : listGet s.rooms rr with
        | none =>
            exfalso
            unfold memberList at hmem
            rw [hm] at hmem
            simp at hmem
        | some members0 =>
            have hmem0 : id ∈ members0 := by
              unfold memberList at hmem
              rwa [hm] at hmem
            obtain ⟨c, hc, hcr⟩ := h1 rr members0 id hm hmem0
            have hne : id ≠ clientId := by
              rintro rfl
              rw [hfresh] at hc
              cases hc
            exact ⟨c, by rw [listGet_listSet_ne _ _ hne]; exact hc, hcr⟩
    · rw [listGet_listSet_ne _ _ hrr] at hr
      obtain ⟨c, hc, hcr⟩ := h1 rr members id hr hid
      have hne : id ≠ clientId := by
        rintro rfl
        rw [hfresh] at hc
        cases hc
      exact ⟨c, by rw [listGet_listSet_ne _ _ hne]; exact hc, hcr⟩
  · intro id c hc
    by_cases hid : id = clientId
    · subst hid
      rw [listGet_listSet_self] at hc
      obtain rfl := Option.some.inj hc
      exact ⟨setAdd (memberList s room) id, listGet_listSet_self _ _ _,
        mem_setAdd.mpr (Or.inl rfl)⟩
    · rw [listGet_listSet_ne _ _ hid] at hc
      obtain ⟨members0, hm, hmem⟩ := h2 id c hc
      by_cases hcr : c.room = room
      · rw [hcr] at hm ⊢
        refine ⟨setAdd (memberList s room) clientId,
          listGet_listSet_self _ _ _, ?_⟩
        refine mem_setAdd.mpr (Or.inr ?_)
        unfold memberList
        rw [hm]
        exact hmem
      · rw [listGet_listSet_ne _ _ hcr]
        exact ⟨members0, hm, hmem⟩

theorem consistent_join (s : ServerState) (hC : Consistent s)
    (clientId : String) (n r rl : Option String)
    (hfresh : listGet s.clients clientId = none) :
    Consistent (handleWebSocketJoin s clientId n r rl).1 := by
  rw [handleWebSocketJoin_fst]
  exact consistent_join_aux s hC clientId _ _ _ hfresh

-- ================ Disconnect normalization ================

/-- The `rooms` map after the directory-leave step of
`handleClientDisconnect`. -/
def roomsAfterLeave (s : ServerState) (room clientId : String) :
    List (String × List String) :=
  match listGet s.rooms room with
  | none => s.rooms
  | some members =>
      let members' := members.filter (fun m => m != clientId)
      if members'.isEmpty then listErase s.rooms room
      else listSet s.rooms room members'

theorem handleClientDisconnect_fst (s : ServerState) (clientId : String)
    (client : Client) (hcl : listGet s.clients clientId = some client) :
    (handleClientDisconnect s clientId).1 =
      { clients := listErase s.clients clientId,
        rooms := roomsAfterLeave s client.room clientId,
        clientRooms := listErase s.clientRooms clientId,
        rateLimits := s.rateLimits } := by
  simp only [handleClientDisconnect, hcl, roomsAfterLeave]
  cases hm : listGet s.rooms client.room with
  | none => simp
  | some members =>
      by_cases he : (members.filter (fun m => m != clientId)).isEmpty
      · simp [he]
      · simp [he]

theorem handleClientDisconnect_snd (s : ServerState) (clientId : String)
    (client : Client) (hcl : listGet s.clients clientId = some client) :
    (handleClientDisconnect s clientId).2 =
      broadcastToRoom (handleClientDisconnect s clientId).1 client.room none
        (Frame.userLeft clientId client.name
          (getRoomUsers (handleClientDisconnect s clientId).1 client.room)) := by
  simp only [handleClientDisconnect, hcl]

theorem listGet_roomsAfterLeave_self (s : ServerState)
    (room clientId : String) :
    listGet (roomsAfterLeave s room clientId) room =
      if ((memberList s room).filter (fun m => m != clientId)).isEmpty then none
      else some ((memberList s room).filter (fun m => m != clientId)) := by
  unfold roomsAfterLeave
  cases hm : listGet s.rooms room with
  | none => simp [memberList, hm]
  | some members =>
      have hml : memberList s room = members := by
        unfold memberList
        rw [hm]
        rfl
      rw [hml]
      by_cases he : (members.filter (fun m => m != clientId)).isEmpty
      · simp only [he, if_pos]
        exact listGet_listErase_self _ _
      · simp only [he, if_neg, Bool.false_eq_true, not_false_iff]
        exact listGet_listSet_self _ _ _

theorem listGet_roomsAfterLeave_ne (s : ServerState)
    (room clientId r : String) (h : r ≠ room) :
    listGet (roomsAfterLeave s room clientId) r = listGet s.rooms r := by
  unfold roomsAfterLeave
  cases hm : listGet s.rooms room with
  | none => rfl
  | some members =>
      by_cases he : (members.filter (fun m => m != clientId)).isEmpty
      · simp only [he, if_pos]
        exact listGet_listErase_ne _ h
      · simp only [he, if_neg, Bool.false_eq_true, not_false_iff]
        exact listGet_listSet_ne _ _ h

theorem consistent_disconnect (s : ServerState) (hC : Consistent s)
    (clientId : String) :
    Consistent (handleClientDisconnect s clientId).1 := by
  cases hcl : listGet s.clients clientId with
  | none => simpa [handleClientDisconnect, hcl] using hC
  | some client =>
      rw [handleClientDisconnect_fst s clientId client hcl]
      obtain ⟨h1, h2⟩ := hC
      constructor
      · intro rr members id hr hid
        by_cases hrr : rr = client.room
        · subst hrr
          rw [listGet_roomsAfterLeave_self] at hr
          by_cases he : ((memberList s client.room).filter
              (fun m => m != clientId)).isEmpty
          · rw [if_pos he] at hr
            cases hr
          · rw [if_neg he] at hr
            obtain rfl := Option.some.inj hr
            have hfid := List.mem_filter.mp hid
            have hne : id ≠ clientId := bne_iff_ne.mp hfid.2
            cases hmr : listGet s.rooms client.room with
            | none =>
                exfalso
                have hnil : memberList s client.room = [] := by
                  unfold memberList
                  rw [hmr]
                  rfl
                rw [hnil] at hfid
                exact absurd hfid.1 (List.not_mem_nil id)
            | some mem0 =>
                have hmem0 : id ∈ mem0 := by
                  have hmm : memberList s client.room = mem0 := by
                    unfold memberList
                    rw [hmr]
                    rfl
                  rw [hmm] at hfid
                  exact hfid.1
                obtain ⟨c, hc, hcr⟩ := h1 client.room mem0 id hmr hmem0
                refine ⟨c, ?_, hcr⟩
                rw [listGet_listErase_ne _ hne]
                exact hc
        · rw [listGet_roomsAfterLeave_ne _ _ _ _ hrr] at hr
          obtain ⟨c, hc, hcr⟩ := h1 rr members id hr hid
          have hne : id ≠ clientId := by
            rintro rfl
            rw [hcl] at hc
            obtain rfl := Option.some.inj hc
            exact hrr hcr.symm
          refine ⟨c, ?_, hcr⟩
          rw [listGet_listErase_ne _ hne]
          exact hc
      · intro id c hc
        have hne : id ≠ clientId := by
          rintro rfl
          rw [listGet_listErase_self] at hc
          cases hc
        rw [listGet_listErase_ne _ hne] at hc
        obtain ⟨mem0, hm0, hmem0⟩ := h2 id c hc
        by_cases hcr : c.room = client.room
        · rw [hcr] at hm0 ⊢
          rw [listGet_roomsAfterLeave_self]
          have hml : memberList s client.room = mem0 := by
            unfold memberList
            rw [hm0]
            rfl
          have hidmem : id ∈ (memberList s client.room).filter
              (fun m => m != clientId) := by
            rw [hml]
            exact List.mem_filter.mpr ⟨hmem0, bne_iff_ne.mpr hne⟩
          have hnotempty : ¬((memberList s client.room).filter
              (fun m => m != clientId)).isEmpty = true := by
            intro he
            rw [List.isEmpty_iff] at he
            rw [he] at hidmem
            exact absurd hidmem (List.not_mem_nil id)
          rw [if_neg hnotempty]
          exact ⟨_, rfl, hidmem⟩
        · rw [listGet_roomsAfterLeave_ne _ _ _ _ hcr]
          exact ⟨mem0, hm0, hmem0⟩

theorem consistent_applyOps : ∀ (ops : List ServerOp) (s : ServerState),
    Consistent s → freshSeq s ops = true → Consistent (applyOps s ops) := by
  intro ops
  induction ops with
  | nil => intro s hC _; exact hC
  | cons op rest ih =>
      intro s hC hfresh
      cases op with
      | join cid n r rl =>
          rw [show freshSeq s (ServerOp.join cid n r rl :: rest)
              = ((listGet s.clients cid).isNone &&
                  freshSeq (applyOp s (ServerOp.join cid n r rl)) rest)
            from rfl, Bool.and_eq_true] at hfresh
          have hnone : listGet s.clients cid = none :=
            Option.isNone_iff_eq_none.mp hfresh.1
          exact ih _ (consistent_join s hC cid n r rl hnone) hfresh.2
      | disconnect cid =>
          rw [show freshSeq s (ServerOp.disconnect cid :: rest)
              = (true && freshSeq (applyOp s (ServerOp.disconnect cid)) rest)
            from rfl, Bool.true_and] at hfresh
          exact ih _ (consistent_disconnect s hC cid) hfresh

/-- Claim C1: after every sequence of connection-join and
connection-leave operations (joins using fresh connection ids, per the
id-generation policy), the Registry/Directory state is bidirectionally
consistent: every id in some room's member set has a clients-map entry
whose `room` field names that room, and every clients-map entry's `room`
names a room whose member set contains that id. -/
theorem registry_directory_consistent (ops : List ServerOp)
    (h : freshSeq initialState ops = true) :
    Consistent (applyOps initialState ops) :=
  consistent_applyOps ops initialState consistent_initialState h

def opsC1 : List ServerOp :=
  [ServerOp.join "A" (some "Alice") (some "r1") none,
   ServerOp.join "B" (some "Bob") (some "r1") none,
   ServerOp.disconnect "A"]

theorem registry_directory_consistent_witness :
    freshSeq initialState opsC1 = true ∧
      Consistent (applyOps initialState opsC1) :=
  ⟨by decide, registry_directory_consistent opsC1 (by decide)⟩

-- ================ Room lifecycle invariant (claim C7) ================

/-- Every room present in the rooms map has a non-empty member set. -/
def roomsNonempty (s : ServerState) : Prop :=
  ∀ r members, listGet s.rooms r = some members → members ≠ []

theorem roomsNonempty_initialState : roomsNonempty initialState := by
  intro r members hr
  simp [initialState, listGet] at hr

theorem roomsNonempty_join (s : ServerState) (hN : roomsNonempty s)
    (clientId : String) (n r rl : Option String) :
    roomsNonempty (handleWebSocketJoin s clientId n r rl).1 := by
  rw [handleWebSocketJoin_fst]
  intro rr members hr
  by_cases hrr : rr = sanitizeInput (orElseStr r "bingo_main")
  · subst hrr
    rw [listGet_listSet_self] at hr
    obtain rfl := Option.some.inj hr
    exact setAdd_ne_nil _ _
  · rw [listGet_listSet_ne _ _ hrr] at hr
    exact hN rr members hr

theorem roomsNonempty_disconnect (s : ServerState) (hN : roomsNonempty s)
    (clientId : String) :
    roomsNonempty (handleClientDisconnect s clientId).1 := by
  cases hcl : listGet s.clients clientId with
  | none =>
      have heq : (handleClientDisconnect s clientId).1 = s := by
        simp [handleClientDisconnect, hcl]
      rw [heq]
      exact hN
  | some client =>
      rw [handleClientDisconnect_fst s clientId client hcl]
      intro rr members hr
      by_cases hrr : rr = client.room
      · subst hrr
        rw [listGet_roomsAfterLeave_self] at hr
        by_cases he : ((memberList s client.room).filter
            (fun m => m != clientId)).isEmpty
        · rw [if_pos he] at hr
          cases hr
        · rw [if_neg he] at hr
          obtain rfl := Option.some.inj hr
          intro hnil
          rw [← List.isEmpty_iff] at hnil
          exact he hnil
      · rw [listGet_roomsAfterLeave_ne _ _ _ _ hrr] at hr
        exact hN rr members hr

theorem roomsNonempty_applyOps : ∀ (ops : List ServerOp) (s : ServerState),
    roomsNonempty s → roomsNonempty (applyOps s ops) := by
  intro ops
  induction ops with
  | nil => intro s hN; exact hN
  | cons op rest ih =>
      intro s hN
      rw [show applyOps s (op :: rest) = applyOps (applyOp s op) rest from rfl]
      refine ih (applyOp s op) ?_
      cases op with
      | join cid n r rl => exact roomsNonempty_join s hN cid n r rl
      | disconnect cid => exact roomsNonempty_disconnect s hN cid

/-- Claim C7: after every sequence of join or leave operations, a room
name is present in the rooms map if and only if its member set is
non-empty — rooms are created lazily on the first join and deleted in
the same operation that empties them, so no empty room persists. -/
theorem room_present_iff_members_nonempty (ops : List ServerOp)
    (r : String) :
    (listGet (applyOps initialState ops).rooms r).isSome = true ↔
      memberList (applyOps initialState ops) r ≠ [] := by
  have hN : roomsNonempty (applyOps initialState ops) :=
    roomsNonempty_applyOps ops initialState roomsNonempty_initialState
  cases hr : listGet (applyOps initialState ops).rooms r with
  | none =>
      constructor
      · intro h
        cases h
      · intro h
        exfalso
        apply h
        unfold memberList
        rw [hr]
        rfl
  | some members =>
      constructor
      · intro _
        have hne := hN r members hr
        unfold memberList
        rw [hr]
        exact hne
      · intro _
        rfl

-- ================ Router dispatch lemmas ================

theorem route_dispatch_bingo (s : ServerState) (clientId : String)
    (client : Client) (msg : WebSocketMessage)
    (hc : listGet s.clients clientId = some client)
    (ht : msg.type = "bingo-number") :
    handleWebSocketMessage s clientId msg =
      (s, handleBingoNumber s client msg) := by
  simp [handleWebSocketMessage, hc, ht]

theorem route_dispatch_chat (s : ServerState) (clientId : String)
    (client : Client) (msg : WebSocketMessage)
    (hc : listGet s.clients clientId = some client)
    (ht : msg.type = "chat") :
    handleWebSocketMessage s clientId msg =
      (s, handleChatMessage s client msg) := by
  simp [handleWebSocketMessage, hc, ht]

theorem route_dispatch_signaling (s : ServerState) (clientId : String)
    (client : Client) (msg : WebSocketMessage)
    (hc : listGet s.clients clientId = some client)
    (ht : msg.type = "offer" ∨ msg.type = "answer" ∨
      msg.type = "ice-candidate") :
    handleWebSocketMessage s clientId msg =
      (s, handleRTCSignaling s client msg) := by
  rcases ht with ht | ht | ht <;> simp [handleWebSocketMessage, hc, ht]

/-- Model of `broadcastGuard` with an excluded sender, spelled out. -/
theorem broadcastGuard_some (s : ServerState) (uid rid : String) :
    broadcastGuard s (some uid) rid = true ↔
      rid ≠ uid ∧ openRegistered s rid = true := by
  unfold broadcastGuard
  by_cases h : rid = uid
  · simp [h]
  · simp [h, Option.some.injEq]

/-- Model of `broadcastGuard` with no exclusion, spelled out. -/
theorem broadcastGuard_none (s : ServerState) (rid : String) :
    broadcastGuard s none rid = true ↔ openRegistered s rid = true := by
  simp [broadcastGuard]

-- ================ Claim C8: unknown sender ================

/-- Claim C8: an inbound event whose sender id has no entry in the
Connection Registry is dropped silently: no frame is sent to anyone (not
even an error to the sender) and the whole server state — Registry,
Directory and rate-limit maps — is unchanged. -/
theorem route_unknown_sender_dropped (s : ServerState) (clientId : String)
    (msg : WebSocketMessage) (h : listGet s.clients clientId = none) :
    handleWebSocketMessage s clientId msg = (s, []) := by
  simp [handleWebSocketMessage, h]

theorem route_unknown_sender_dropped_witness :
    listGet initialState.clients "ghost" = none ∧
      handleWebSocketMessage initialState "ghost" { type := "chat" } =
        (initialState, []) :=
  ⟨rfl, route_unknown_sender_dropped initialState "ghost" { type := "chat" }
    rfl⟩

-- ================ Claim C2: bingo-number validation ================

/-- Two clients A (Alice) and B (Bob) in room r1, built by joining. -/
def stAB : ServerState :=
  applyOps initialState
    [ServerOp.join "A" (some "Alice") (some "r1") none,
     ServerOp.join "B" (some "Bob") (some "r1") none]

def clientA : Client := ⟨"A", "Alice", "r1", "player", true⟩

def msgBingoHalf : WebSocketMessage :=
  { type := "bingo-number", number := NumberVal.num (mkRat 3 2) }

/-- Counterexample to claim C2 as stated: the payload `1.5` (a JS number
that is not an integer) passes validation and is broadcast — the code
checks only `typeof number === "number"` and the range `[1, 90]`, not
integrality, so a non-integer payload does not yield an error frame. -/
theorem bingo_noninteger_accepted_counterexample :
    (mkRat 3 2).den ≠ 1 ∧
      (handleWebSocketMessage stAB "A" msgBingoHalf).2 =
        [("B", Frame.bingoNumber (mkRat 3 2) "Alice")] :=
  ⟨by decide, by decide⟩

/-- Claim C2 (amended): for every `bingo-number` event, the payload is
validated to be a JS number in `[1, 90]` (integrality is not checked): on
a non-numeric payload or a number outside the range the sender receives
exactly one `error` frame and nothing is broadcast; on a number in range
the event is broadcast, tagged with the caller's display name, exactly
once to every other live room member, excluding the sender. -/
theorem bingo_number_validation (s : ServerState) (clientId : String)
    (client : Client) (msg : WebSocketMessage)
    (hc : listGet s.clients clientId = some client)
    (ht : msg.type = "bingo-number")
    (hnd : (memberList s client.room).Nodup) :
    (handleWebSocketMessage s clientId msg).1 = s ∧
    (msg.number = NumberVal.notNum →
      (handleWebSocketMessage s clientId msg).2 =
        [(client.userId, Frame.error "Invalid bingo number")]) ∧
    (∀ q, msg.number = NumberVal.num q → (q < 1 ∨ q > 90) →
      (handleWebSocketMessage s clientId msg).2 =
        [(client.userId, Frame.error "Invalid bingo number")]) ∧
    (∀ q, msg.number = NumberVal.num q → 1 ≤ q → q ≤ 90 →
      (∀ p ∈ (handleWebSocketMessage s clientId msg).2,
          p.2 = Frame.bingoNumber q client.name) ∧
      (∀ rid, ((handleWebSocketMessage s clientId msg).2.count
            (rid, Frame.bingoNumber q client.name)) =
          if rid ∈ memberList s client.room ∧ rid ≠ client.userId ∧
              openRegistered s rid = true then 1 else 0)) := by
  rw [route_dispatch_bingo s clientId client msg hc ht]
  refine ⟨rfl, ?_, ?_, ?_⟩
  · intro hn
    simp [handleBingoNumber, hn]
  · intro q hq hrange
    simp only [handleBingoNumber, hq]
    rw [if_pos hrange]
  · intro q hq h1q hq90
    have hno : ¬(q < 1 ∨ q > 90) := by
      rintro (h | h)
      · exact absurd h1q (not_le.mpr h)
      · exact absurd hq90 (not_le.mpr h)
    simp only [handleBingoNumber, hq]
    rw [if_neg hno]
    constructor
    · exact frames_broadcastToRoom
    · intro rid
      rw [count_broadcastToRoom hnd rid]
      exact if_congr (and_congr_right fun _ => broadcastGuard_some s _ rid)
        rfl rfl

def msgBingoFive : WebSocketMessage :=
  { type := "bingo-number", number := NumberVal.num 5 }

theorem bingo_number_validation_witness :
    listGet stAB.clients "A" = some clientA ∧
      (memberList stAB clientA.room).Nodup ∧
      (handleWebSocketMessage stAB "A" msgBingoFive).1 = stAB :=
  ⟨by decide, by decide,
    (bingo_number_validation stAB "A" clientA msgBingoFive (by decide) rfl
      (by decide)).1⟩

-- ================ Claim C3: chat sanitize and length limit ================

def msgChatQuotes : WebSocketMessage :=
  { type := "chat",
    message := some (String.mk (List.replicate 100 (Char.ofNat 34))) }

/-- Counterexample to claim C3 as stated: a 100-character message (well
under 500 characters, in scalar count and in JS UTF-16 `.length` alike)
consisting of double quotes is answered with an `error` frame and is not
broadcast, because the 500 cutoff is applied to the sanitized text —
each quote expands to `&quot;`, giving length 600 here. -/
theorem chat_short_message_rejected_counterexample :
    utf16Length (String.mk (List.replicate 100 (Char.ofNat 34))) = 100 ∧
      (String.mk (List.replicate 100 (Char.ofNat 34))).length = 100 ∧
      (handleWebSocketMessage stAB "A" msgChatQuotes).2 =
        [("A", Frame.error "Message too long")] :=
  ⟨by decide, by decide, by decide⟩

/-- Claim C3 (amended): for every chat event the text payload is
HTML-escaped and then length-limited on the *sanitized* text, measured
in UTF-16 code units as JS `.length` does: if the sanitized message's
UTF-16 length exceeds 500 the sender receives exactly one `error` frame
and nothing is broadcast (in particular any raw message whose UTF-16
length exceeds 500 is rejected, since sanitization never shortens); if
the sanitized message's UTF-16 length is at most 500 it is broadcast,
sanitized, exactly once to every live member of the sender's room
including the sender. -/
theorem chat_sanitize_and_limit (s : ServerState) (clientId : String)
    (client : Client) (msg : WebSocketMessage)
    (hc : listGet s.clients clientId = some client)
    (ht : msg.type = "chat")
    (hnd : (memberList s client.room).Nodup) :
    (handleWebSocketMessage s clientId msg).1 = s ∧
    utf16Length (orElseStr msg.message "") ≤
      utf16Length (sanitizeInput (orElseStr msg.message "")) ∧
    (utf16Length (sanitizeInput (orElseStr msg.message "")) > 500 →
      (handleWebSocketMessage s clientId msg).2 =
        [(client.userId, Frame.error "Message too long")]) ∧
    (utf16Length (sanitizeInput (orElseStr msg.message "")) ≤ 500 →
      (∀ p ∈ (handleWebSocketMessage s clientId msg).2,
          p.2 = Frame.chat client.userId client.name
            (sanitizeInput (orElseStr msg.message ""))) ∧
      (∀ rid, ((handleWebSocketMessage s clientId msg).2.count
            (rid, Frame.chat client.userId client.name
              (sanitizeInput (orElseStr msg.message "")))) =
          if rid ∈ memberList s client.room ∧ openRegistered s rid = true
          then 1 else 0)) := by
  rw [route_dispatch_chat s clientId client msg hc ht]
  refine ⟨rfl, utf16Length_le_sanitizeInput _, ?_, ?_⟩
  · intro hlong
    simp only [handleChatMessage]
    rw [if_pos hlong]
  · intro hshort
    simp only [handleChatMessage]
    rw [if_neg (not_lt.mpr hshort)]
    constructor
    · exact frames_broadcastToRoom
    · intro rid
      rw [count_broadcastToRoom hnd rid]
      exact if_congr (and_congr_right fun _ => broadcastGuard_none s rid)
        rfl rfl

def msgChatPlain : WebSocketMessage :=
  { type := "chat", message := some (String.mk (List.replicate 500 'a')) }

theorem chat_sanitize_and_limit_witness :
    listGet stAB.clients "A" = some clientA ∧
      (memberList stAB clientA.room).Nodup ∧
      ((handleWebSocketMessage stAB "A" msgChatPlain).2.count
          ("B", Frame.chat clientA.userId clientA.name
            (sanitizeInput (orElseStr msgChatPlain.message "")))) = 1 := by
  refine ⟨by decide, by decide, ?_⟩
  have h := (chat_sanitize_and_limit stAB "A" clientA msgChatPlain (by decide)
    rfl (by decide)).2.2.2 (by decide)
  rw [h.2 "B"]
  decide

-- ================ Claim C4: signaling relay ================

/-- Claim C4: for every signaling event (`offer`, `answer`,
`ice-candidate`): a `target` of `"broadcast"` relays the frame, with
`from` set to the sender's id, exactly once to every other live member of
the sender's room; a specific target id is relayed only to that
connection and only when its registered room equals the sender's room; a
target registered in a different room, or not registered at all, yields
zero deliveries. -/
theorem rtc_signaling_relay (s : ServerState) (clientId : String)
    (client : Client) (msg : WebSocketMessage)
    (hc : listGet s.clients clientId = some client)
    (ht : msg.type = "offer" ∨ msg.type = "answer" ∨
      msg.type = "ice-candidate")
    (hnd : (memberList s client.room).Nodup) :
    (handleWebSocketMessage s clientId msg).1 = s ∧
    (msg.target = some "broadcast" →
      (∀ p ∈ (handleWebSocketMessage s clientId msg).2,
          p.2 = Frame.signal msg.type (some "broadcast") client.userId) ∧
      (∀ rid, ((handleWebSocketMessage s clientId msg).2.count
            (rid, Frame.signal msg.type (some "broadcast") client.userId)) =
          if rid ∈ memberList s client.room ∧ rid ≠ client.userId ∧
              openRegistered s rid = true then 1 else 0)) ∧
    (∀ t targetClient, msg.target = some t → t ≠ "broadcast" → t ≠ "" →
      listGet s.clients t = some targetClient →
      targetClient.room = client.room →
      (handleWebSocketMessage s clientId msg).2 =
        [(t, Frame.signal msg.type (some t) client.userId)]) ∧
    (∀ t targetClient, msg.target = some t → t ≠ "broadcast" →
      listGet s.clients t = some targetClient →
      targetClient.room ≠ client.room →
      (handleWebSocketMessage s clientId msg).2 = []) ∧
    (∀ t, msg.target = some t → t ≠ "broadcast" →
      listGet s.clients t = none →
      (handleWebSocketMessage s clientId msg).2 = []) := by
  rw [route_dispatch_signaling s clientId client msg hc ht]
  refine ⟨rfl, ?_, ?_, ?_, ?_⟩
  · intro htar
    simp only [handleRTCSignaling, htar, if_true]
    constructor
    · exact frames_broadcastToRoom
    · intro rid
      rw [count_broadcastToRoom hnd rid]
      exact if_congr (and_congr_right fun _ => broadcastGuard_some s _ rid)
        rfl rfl
  · intro t tc htar hnb hne hgt hroom
    simp [handleRTCSignaling, htar, hnb, hne, hgt, hroom]
  · intro t tc htar hnb hgt hroom
    by_cases he : t = ""
    · simp [handleRTCSignaling, htar, hnb, he]
    · simp [handleRTCSignaling, htar, hnb, he, hgt, hroom]
  · intro t htar hnb hgt
    by_cases he : t = ""
    · simp [handleRTCSignaling, htar, hnb, he]
    · simp [handleRTCSignaling, htar, hnb, he, hgt]

def clientB : Client := ⟨"B", "Bob", "r1", "player", true⟩

def msgOfferB : WebSocketMessage := { type := "offer", target := some "B" }

theorem rtc_signaling_relay_witness :
    listGet stAB.clients "A" = some clientA ∧
      (memberList stAB clientA.room).Nodup ∧
      (handleWebSocketMessage stAB "A" msgOfferB).2 =
        [("B", Frame.signal msgOfferB.type (some "B") clientA.userId)] := by
  refine ⟨by decide, by decide, ?_⟩
  exact (rtc_signaling_relay stAB "A" clientA msgOfferB (by decide)
    (Or.inl rfl) (by decide)).2.2.1 "B" clientB rfl (by decide) (by decide)
    (by decide) rfl

-- ================ Claim C6: disconnect transition ================

/-- Claim C6: the disconnect transition removes the connection from its
room's member set (deleting the room when it empties), removes the
registry entry, leaves other rooms untouched, and sends a `user-left`
frame carrying the member list of the *updated* state exactly once to
every remaining live member of the room; a disconnect for an id that is
not registered changes nothing and sends nothing.  In particular, with A
and B the members of room r1, disconnecting A leaves B a `user-left`
frame whose users list contains only B, and room r1 with exactly one
member. -/
theorem disconnect_transition (s : ServerState) (clientId : String) :
    (listGet s.clients clientId = none →
      handleClientDisconnect s clientId = (s, [])) ∧
    (∀ client, listGet s.clients clientId = some client →
      (memberList s client.room).Nodup →
      (listGet (handleClientDisconnect s clientId).1.clients clientId
          = none ∧
       listGet (handleClientDisconnect s clientId).1.rooms client.room =
        (if ((memberList s client.room).filter
            (fun m => m != clientId)).isEmpty then none
         else some ((memberList s client.room).filter
            (fun m => m != clientId))) ∧
       (∀ r, r ≠ client.room →
          listGet (handleClientDisconnect s clientId).1.rooms r
            = listGet s.rooms r) ∧
       (∀ p ∈ (handleClientDisconnect s clientId).2,
          p.2 = Frame.userLeft clientId client.name
            (getRoomUsers (handleClientDisconnect s clientId).1
              client.room)) ∧
       (∀ rid, ((handleClientDisconnect s clientId).2.count
            (rid, Frame.userLeft clientId client.name
              (getRoomUsers (handleClientDisconnect s clientId).1
                client.room))) =
          if rid ∈ memberList (handleClientDisconnect s clientId).1
                client.room ∧
              openRegistered (handleClientDisconnect s clientId).1 rid
                = true
          then 1 else 0))) ∧
    ((handleClientDisconnect stAB "A").2 =
        [("B", Frame.userLeft "A" "Alice" [⟨"B", "Bob", "player"⟩])] ∧
      memberList (handleClientDisconnect stAB "A").1 "r1" = ["B"]) := by
  refine ⟨?_, ?_, by decide, by decide⟩
  · intro hnone
    simp [handleClientDisconnect, hnone]
  · intro client hcl hnd
    have hfst := handleClientDisconnect_fst s clientId client hcl
    have hsnd := handleClientDisconnect_snd s clientId client hcl
    have hclients : (handleClientDisconnect s clientId).1.clients
        = listErase s.clients clientId := by
      rw [hfst]
    have hrooms : (handleClientDisconnect s clientId).1.rooms
        = roomsAfterLeave s client.room clientId := by
      rw [hfst]
    have hndpost :
        (memberList (handleClientDisconnect s clientId).1
          client.room).Nodup := by
      unfold memberList
      rw [hrooms, listGet_roomsAfterLeave_self]
      by_cases he : ((memberList s client.room).filter
          (fun m => m != clientId)).isEmpty
      · rw [if_pos he]
        exact List.nodup_nil
      · rw [if_neg he]
        exact hnd.filter _
    refine ⟨?_, ?_, ?_, ?_, ?_⟩
    · rw [hclients]
      exact listGet_listErase_self _ _
    · rw [hrooms]
      exact listGet_roomsAfterLeave_self s client.room clientId
    · intro r hr
      rw [hrooms]
      exact listGet_roomsAfterLeave_ne s client.room clientId r hr
    · rw [hsnd]
      exact frames_broadcastToRoom
    · intro rid
      rw [hsnd, count_broadcastToRoom hndpost rid]
      exact if_congr (and_congr_right fun _ =>
        broadcastGuard_none (handleClientDisconnect s clientId).1 rid)
        rfl rfl

theorem disconnect_transition_witness :
    listGet stAB.clients "X" = none ∧
      handleClientDisconnect stAB "X" = (stAB, []) :=
  ⟨by decide, (disconnect_transition stAB "X").1 (by decide)⟩

-- ================ Claim C5: rate limiter ================

/-- Every bucket's count is at most the 100-per-window ceiling. -/
def countsWithinLimit (rl : List (String × RateLimitEntry)) : Prop :=
  ∀ ip e, listGet rl ip = some e → e.count ≤ 100

theorem countsWithinLimit_listSet {rl : List (String × RateLimitEntry)}
    (h : countsWithinLimit rl) {ip : String} {e : RateLimitEntry}
    (he : e.count ≤ 100) : countsWithinLimit (listSet rl ip e) := by
  intro ip' e' h'
  by_cases hip : ip' = ip
  · subst hip
    rw [listGet_listSet_self] at h'
    obtain rfl := Option.some.inj h'
    exact he
  · rw [listGet_listSet_ne _ _ hip] at h'
    exact h ip' e' h'

theorem isRateLimited_fresh (rl : List (String × RateLimitEntry))
    (ip : String) (now : Nat) (h : listGet rl ip = none) :
    isRateLimited rl ip now = (false, listSet rl ip ⟨1, now + 60000⟩) := by
  simp [isRateLimited, h]

theorem isRateLimited_expired (rl : List (String × RateLimitEntry))
    (ip : String) (now : Nat) (e : RateLimitEntry)
    (h : listGet rl ip = some e) (hexp : e.resetTime < now) :
    isRateLimited rl ip now = (false, listSet rl ip ⟨1, now + 60000⟩) := by
  simp [isRateLimited, h, hexp]
theorem countsWithinLimit_isRateLimited
    (rl : List (String × RateLimitEntry)) (h : countsWithinLimit rl)
    (ip : String) (now : Nat) :
    countsWithinLimit (isRateLimited rl ip now).2 := by
  cases hget : listGet rl ip with
  | none =>
      rw [isRateLimited_fresh rl ip now hget]
      exact countsWithinLimit_listSet h (by norm_num)
  | some e =>
      by_cases hexp : e.resetTime < now
      · rw [isRateLimited_expired rl ip now e hget hexp]
        exact countsWithinLimit_listSet h (by norm_num)
      · by_cases hcount : 100 ≤ e.count
        · have hstep : isRateLimited rl ip now = (true, rl) := by
            simp [isRateLimited, hget, hexp, hcount]
          rw [hstep]
          exact h
        · have hstep : isRateLimited rl ip now
              = (false, listSet rl ip ⟨e.count + 1, e.resetTime⟩) := by
            simp [isRateLimited, hget, hexp, hcount]
          rw [hstep]
          refine countsWithinLimit_listSet h ?_
          show e.count + 1 ≤ 100
          omega

/-- One window's worth of calls against an existing bucket: with the
bucket at count `c` (`1 ≤ c ≤ 100`) and every call time within the
window, the i-th further call is rejected exactly when the count has
reached 100, and the final count is capped at 100. -/
theorem runCalls_bucket (ip : String) (r : Nat) :
    ∀ (ts : List Nat) (rl : List (String × RateLimitEntry)) (c : Nat),
      listGet rl ip = some ⟨c, r⟩ → 1 ≤ c → c ≤ 100 →
      (∀ t ∈ ts, t ≤ r) →
      (runCalls rl ip ts).1 =
        (List.range ts.length).map (fun i => decide (100 ≤ c + i)) ∧
      listGet (runCalls rl ip ts).2 ip = some ⟨min (c + ts.length) 100, r⟩ := by
  intro ts
  induction ts with
  | nil =>
      intro rl c hget h1 h100 _
      refine ⟨rfl, ?_⟩
      rw [show runCalls rl ip [] = ([], rl) from rfl, hget]
      have hmin : min (c + ([] : List Nat).length) 100 = c := by
        simp only [List.length_nil, Nat.add_zero]
        omega
      rw [hmin]
  | cons t ts ih =>
      intro rl c hget h1 h100 hts
      have htr : t ≤ r := hts t (List.mem_cons_self t ts)
      have hnexp : ¬(⟨c, r⟩ : RateLimitEntry).resetTime < t := by
        simp only []
        omega
      by_cases hcount : 100 ≤ c
      · have hc100 : c = 100 := le_antisymm h100 hcount
        have hstep : isRateLimited rl ip t = (true, rl) := by
          simp [isRateLimited, hget, hnexp, hcount]
        have hrest := ih rl c hget h1 h100
          (fun t' ht' => hts t' (List.mem_cons_of_mem t ht'))
        refine ⟨?_, ?_⟩
        · simp only [runCalls, hstep, hrest.1, List.length_cons,
            List.range_succ_eq_map, List.map_cons, List.map_map,
            show decide (100 ≤ c + 0) = true from decide_eq_true (by omega)]
          congr 1
          refine List.map_congr_left (fun i _ => ?_)
          simp only [Function.comp_apply]
          rw [decide_eq_decide]
          omega
        · simp only [runCalls, hstep]
          rw [hrest.2]
          have hmin : min (c + ts.length) 100
              = min (c + (t :: ts).length) 100 := by
            simp only [List.length_cons]
            omega
          rw [hmin]
      · have hstep : isRateLimited rl ip t
            = (false, listSet rl ip ⟨c + 1, r⟩) := by
          simp [isRateLimited, hget, hnexp, hcount]
        have hget' : listGet (listSet rl ip ⟨c + 1, r⟩) ip
            = some ⟨c + 1, r⟩ := listGet_listSet_self _ _ _
        have hrest := ih (listSet rl ip ⟨c + 1, r⟩) (c + 1) hget'
          (by omega) (by omega)
          (fun t' ht' => hts t' (List.mem_cons_of_mem t ht'))
        refine ⟨?_, ?_⟩
        · simp only [runCalls, hstep, hrest.1, List.length_cons,
            List.range_succ_eq_map, List.map_cons, List.map_map,
            show decide (100 ≤ c + 0) = false from decide_eq_false (by omega)]
          congr 1
          refine List.map_congr_left (fun i _ => ?_)
          simp only [Function.comp_apply]
          rw [decide_eq_decide]
          omega
        · simp only [runCalls, hstep]
          rw [hrest.2]
          have hmin : min (c + 1 + ts.length) 100
              = min (c + (t :: ts).length) 100 := by
            simp only [List.length_cons]
            omega
          rw [hmin]

/-- Claim C5: per-origin fixed-window admission.  A missing or expired
bucket is replaced by a fresh bucket with count 1 and the call is
admitted; rejected calls do not increment, so no bucket's count ever
exceeds the 100 ceiling; and starting from no bucket, a first call
followed by further calls inside the same window admits exactly the
first 100 calls, rejects from the 101st on, and leaves the count capped
at 100.  A call after the window has elapsed is admitted with a fresh
count of 1 (second conjunct). -/
theorem rate_limiter_fixed_window (rl : List (String × RateLimitEntry))
    (ip : String) (now t0 : Nat) (e : RateLimitEntry) (ts : List Nat) :
    (listGet rl ip = none →
      isRateLimited rl ip now = (false, listSet rl ip ⟨1, now + 60000⟩)) ∧
    (listGet rl ip = some e → e.resetTime < now →
      isRateLimited rl ip now = (false, listSet rl ip ⟨1, now + 60000⟩)) ∧
    (countsWithinLimit rl → countsWithinLimit (isRateLimited rl ip now).2) ∧
    (listGet rl ip = none → (∀ t ∈ ts, t ≤ t0 + 60000) →
      (runCalls rl ip (t0 :: ts)).1 =
        false :: (List.range ts.length).map (fun i => decide (100 ≤ 1 + i)) ∧
      listGet (runCalls rl ip (t0 :: ts)).2 ip =
        some ⟨min (1 + ts.length) 100, t0 + 60000⟩) := by
  refine ⟨isRateLimited_fresh rl ip now, isRateLimited_expired rl ip now e,
    fun h => countsWithinLimit_isRateLimited rl h ip now, ?_⟩
  intro hnone hts
  have hstep : isRateLimited rl ip t0
      = (false, listSet rl ip ⟨1, t0 + 60000⟩) :=
    isRateLimited_fresh rl ip t0 hnone
  have hbucket := runCalls_bucket ip (t0 + 60000) ts
    (listSet rl ip ⟨1, t0 + 60000⟩) 1 (listGet_listSet_self _ _ _)
    (le_refl 1) (by norm_num) hts
  constructor
  · simp only [runCalls, hstep]
    rw [hbucket.1]
  · simp only [runCalls, hstep]
    rw [hbucket.2]

theorem rate_limiter_fixed_window_witness :
    listGet ([] : List (String × RateLimitEntry)) "1.2.3.4" = none ∧
      (∀ t ∈ List.replicate 100 (5 : Nat), t ≤ 0 + 60000) ∧
      (runCalls [] "1.2.3.4" (0 :: List.replicate 100 5)).1 =
        false :: (List.range 100).map (fun i => decide (100 ≤ 1 + i)) ∧
      listGet (runCalls [] "1.2.3.4" (0 :: List.replicate 100 5)).2
          "1.2.3.4" = some ⟨100, 60000⟩ := by
  have h := (rate_limiter_fixed_window [] "1.2.3.4" 0 0 ⟨0, 0⟩
    (List.replicate 100 5)).2.2.2 rfl (by decide)
  refine ⟨rfl, by decide, ?_, ?_⟩
  · rw [h.1]
    simp
  · rw [h.2]
    simp

-- ================ Deployment variant (src/unnamed/part_000) ================

namespace V2

/-- Model of `sanitizeInput` of src/unnamed/part_000 lines 48-55: the same
replacement chain, behind an explicit falsy-input guard
(`if (!input) return ''`). -/
def sanitizeInput (input : String) : String :=
  if input = "" then "" else String.mk (sanitizeChars input.data)

/-- Model of `broadcastToRoom` of src/unnamed/part_000 lines 303-321 (the message
is stringified once before the loop, which does not change the sends). -/
def broadcastToRoom (s : ServerState) (room : String)
    (excludeClientId : Option String) (msg : Frame) : List Send :=
  match listGet s.rooms room with
  | none => []
  | some members =>
      members.filterMap (fun cid =>
        if some cid = excludeClientId then none
        else
          match listGet s.clients cid with
          | some client =>
              if client.readyState then some (cid, msg) else none
          | none => none)

/-- Model of `getRoomUsers` of src/unnamed/part_000 lines 323-340. -/
def getRoomUsers (s : ServerState) (room : String) : List UserInfo :=
  match listGet s.rooms room with
  | none => []
  | some members =>
      members.filterMap (fun cid =>
        match listGet s.clients cid with
        | some client => some ⟨client.userId, client.name, client.role⟩
        | none => none)

/-- Model of `handleBingoNumber` of src/unnamed/part_000 lines 197-214: same
validation, different error message text. -/
def handleBingoNumber (s : ServerState) (client : Client)
    (msg : WebSocketMessage) : List Send :=
  match msg.number with
  | .notNum => [(client.userId, Frame.error "Invalid bingo number (1-90)")]
  | .num number =>
      if number < 1 ∨ number > 90 then
        [(client.userId, Frame.error "Invalid bingo number (1-90)")]
      else
        broadcastToRoom s client.room (some client.userId)
          (Frame.bingoNumber number client.name)

/-- Model of `handleWinner` of src/unnamed/part_000 lines 216-224. -/
def handleWinner (s : ServerState) (client : Client)
    (msg : WebSocketMessage) : List Send :=
  broadcastToRoom s client.room none
    (Frame.winner client.userId client.name (msg.winAmount.getD 0))

/-- Model of `handleRTCSignaling` of src/unnamed/part_000 lines 226-243. -/
def handleRTCSignaling (s : ServerState) (client : Client)
    (msg : WebSocketMessage) : List Send :=
  match msg.target with
  | none => []
  | some target =>
      if target = "broadcast" then
        broadcastToRoom s client.room (some client.userId)
          (Frame.signal msg.type (some target) client.userId)
      else if target = "" then []
      else
        match listGet s.clients target with
        | some targetClient =>
            if targetClient.room = client.room then
              [(target, Frame.signal msg.type (some target) client.userId)]
            else []
        | none => []

/-- Model of `handleChatMessage` of src/unnamed/part_000 lines 245-263
(the same UTF-16 `.length` cutoff as src/server.ts). -/
def handleChatMessage (s : ServerState) (client : Client)
    (msg : WebSocketMessage) : List Send :=
  let chatMessage := sanitizeInput (orElseStr msg.message "")
  if utf16Length chatMessage > 500 then
    [(client.userId, Frame.error "Message too long")]
  else
    broadcastToRoom s client.room none
      (Frame.chat client.userId client.name chatMessage)

/-- Model of `sendRoomUsers` of src/unnamed/part_000 lines 265-272. -/
def sendRoomUsers (s : ServerState) (client : Client) : List Send :=
  [(client.userId, Frame.usersList (getRoomUsers s client.room))]

/-- Model of `handleWebSocketMessage` of src/unnamed/part_000 lines 161-195: same
dispatch as src/server.ts, except that there is no explicit no-op `join`
case — a `join` message falls through to the default no-op. -/
def handleWebSocketMessage (s : ServerState) (clientId : String)
    (msg : WebSocketMessage) : ServerState × List Send :=
  match listGet s.clients clientId with
  | none => (s, [])
  | some client =>
      if msg.type = "ping" then (s, [(clientId, Frame.pong)])
      else if msg.type = "bingo-number" then (s, handleBingoNumber s client msg)
      else if msg.type = "winner" then (s, handleWinner s client msg)
      else if msg.type = "offer" ∨ msg.type = "answer" ∨
              msg.type = "ice-candidate" then
        (s, handleRTCSignaling s client msg)
      else if msg.type = "chat" then (s, handleChatMessage s client msg)
      else if msg.type = "get-users" then (s, sendRoomUsers s client)
      else (s, [])

end V2

-- ================ Claim C9: router equivalence ================

theorem V2_sanitizeInput_eq (t : String) :
    V2.sanitizeInput t = sanitizeInput t := by
  unfold V2.sanitizeInput sanitizeInput
  by_cases h : t = ""
  · subst h
    rfl
  · rw [if_neg h]

theorem V2_broadcastToRoom_eq (s : ServerState) (room : String)
    (ex : Option String) (msg : Frame) :
    V2.broadcastToRoom s room ex msg = broadcastToRoom s room ex msg := rfl

theorem V2_handleWinner_eq (s : ServerState) (client : Client)
    (msg : WebSocketMessage) :
    V2.handleWinner s client msg = handleWinner s client msg := rfl

theorem V2_handleRTCSignaling_eq (s : ServerState) (client : Client)
    (msg : WebSocketMessage) :
    V2.handleRTCSignaling s client msg = handleRTCSignaling s client msg := rfl

theorem V2_sendRoomUsers_eq (s : ServerState) (client : Client) :
    V2.sendRoomUsers s client = sendRoomUsers s client := rfl

theorem V2_handleChatMessage_eq (s : ServerState) (client : Client)
    (msg : WebSocketMessage) :
    V2.handleChatMessage s client msg = handleChatMessage s client msg := by
  unfold V2.handleChatMessage handleChatMessage
  rw [V2_sanitizeInput_eq]
  simp only [V2_broadcastToRoom_eq]

theorem V2_handleBingoNumber_sendTypes (s : ServerState) (client : Client)
    (msg : WebSocketMessage) :
    (V2.handleBingoNumber s client msg).map (fun p => (p.1, frameType p.2))
      = (handleBingoNumber s client msg).map
          (fun p => (p.1, frameType p.2)) := by
  cases hn : msg.number with
  | notNum =>
      simp [V2.handleBingoNumber, handleBingoNumber, hn, frameType]
  | num q =>
      by_cases hr : q < 1 ∨ q > 90
      · simp only [V2.handleBingoNumber, handleBingoNumber, hn]
        rw [if_pos hr, if_pos hr]
        simp [frameType]
      · simp only [V2.handleBingoNumber, handleBingoNumber, hn]
        rw [if_neg hr, if_neg hr, V2_broadcastToRoom_eq]

/-- Claim C9: for every state and inbound typed event, the message
router of src/server.ts and the router of the deployment variant
src/unnamed/part_000 leave the state identically and deliver frames of
the same type to the same recipients in the same order (the two differ
only in the text of the bingo validation error message and in the
explicit no-op `join` case of src/server.ts). -/
theorem routers_equivalent (s : ServerState) (clientId : String)
    (msg : WebSocketMessage) :
    (handleWebSocketMessage s clientId msg).1
      = (V2.handleWebSocketMessage s clientId msg).1 ∧
    (handleWebSocketMessage s clientId msg).2.map
        (fun p => (p.1, frameType p.2))
      = (V2.handleWebSocketMessage s clientId msg).2.map
        (fun p => (p.1, frameType p.2)) := by
  cases hc : listGet s.clients clientId with
  | none =>
      constructor <;>
        simp [handleWebSocketMessage, V2.handleWebSocketMessage, hc]
  | some client =>
      by_cases h1 : msg.type = "ping"
      · constructor <;>
          simp [handleWebSocketMessage, V2.handleWebSocketMessage, hc, h1]
      · by_cases h2 : msg.type = "join"
        · constructor <;>
            simp [handleWebSocketMessage, V2.handleWebSocketMessage, hc,
              h1, h2]
        · by_cases h3 : msg.type = "bingo-number"
          · constructor <;>
              simp [handleWebSocketMessage, V2.handleWebSocketMessage, hc,
                h1, h2, h3, V2_handleBingoNumber_sendTypes]
          · by_cases h4 : msg.type = "winner"
            · constructor <;>
                simp [handleWebSocketMessage, V2.handleWebSocketMessage,
                  hc, h1, h2, h3, h4, V2_handleWinner_eq]
            · by_cases h5 : msg.type = "offer"
              · constructor <;>
                  simp [handleWebSocketMessage, V2.handleWebSocketMessage,
                    hc, h1, h2, h3, h4, h5, V2_handleRTCSignaling_eq]
              · by_cases h6 : msg.type = "answer"
                · constructor <;>
                    simp [handleWebSocketMessage,
                      V2.handleWebSocketMessage, hc, h1, h2, h3, h4, h5,
                      h6, V2_handleRTCSignaling_eq]
                · by_cases h7 : msg.type = "ice-candidate"
                  · constructor <;>
                      simp [handleWebSocketMessage,
                        V2.handleWebSocketMessage, hc, h1, h2, h3, h4, h5,
                        h6, h7, V2_handleRTCSignaling_eq]
                  · by_cases h8 : msg.type = "chat"
                    · constructor <;>
                        simp [handleWebSocketMessage,
                          V2.handleWebSocketMessage, hc, h1, h2, h3, h4,
                          h5, h6, h7, h8, V2_handleChatMessage_eq]
                    · by_cases h9 : msg.type = "get-users"
                      · constructor <;>
                          simp [handleWebSocketMessage,
                            V2.handleWebSocketMessage, hc, h1, h2, h3, h4,
                            h5, h6, h7, h8, h9, V2_sendRoomUsers_eq]
                      · constructor <;>
                          simp [handleWebSocketMessage,
                            V2.handleWebSocketMessage, hc, h1, h2, h3, h4,
                            h5, h6, h7, h8, h9]

-- ================ Claim C10: sanitizeInput algebra ================

/-- A frame's chat payload, if any, is a fixed point of sanitization. -/
def chatPayloadSanitized : Frame → Prop
  | Frame.chat _ _ m => sanitizeInput m = m
  | _ => True

/-- Every stored client's name and room are fixed points of
sanitization. -/
def namesSanitized (s : ServerState) : Prop :=
  s.clients.Forall
    (fun p => sanitizeInput p.2.name = p.2.name ∧
      sanitizeInput p.2.room = p.2.room)

theorem forall_listSet {α : Type} {p : String × α → Prop}
    {m : List (String × α)} (hm : m.Forall p) {k : String} {v : α}
    (hv : p (k, v)) : (listSet m k v).Forall p := by
  induction m with
  | nil => simp [listSet, hv]
  | cons q rest ih =>
      obtain ⟨a, b⟩ := q
      rw [List.forall_cons] at hm
      by_cases h : a = k
      · simp [listSet, h, hv, hm.2]
      · simp only [listSet, if_neg h, List.forall_cons]
        exact ⟨hm.1, ih hm.2⟩

theorem forall_listErase {α : Type} {p : String × α → Prop}
    {m : List (String × α)} (hm : m.Forall p) (k : String) :
    (listErase m k).Forall p := by
  induction m with
  | nil => simp [listErase]
  | cons q rest ih =>
      obtain ⟨a, b⟩ := q
      rw [List.forall_cons] at hm
      by_cases h : a = k
      · simp only [listErase, if_pos h]
        exact ih hm.2
      · simp only [listErase, if_neg h, List.forall_cons]
        exact ⟨hm.1, ih hm.2⟩

theorem namesSanitized_applyOps : ∀ (ops : List ServerOp) (s : ServerState),
    namesSanitized s → namesSanitized (applyOps s ops) := by
  intro ops
  induction ops with
  | nil => intro s h; exact h
  | cons op rest ih =>
      intro s h
      refine ih (applyOp s op) ?_
      cases op with
      | join cid n r rl =>
          show namesSanitized (handleWebSocketJoin s cid n r rl).1
          rw [handleWebSocketJoin_fst]
          exact forall_listSet h ⟨sanitizeInput_idem _, sanitizeInput_idem _⟩
      | disconnect cid =>
          show namesSanitized (handleClientDisconnect s cid).1
          cases hcl : listGet s.clients cid with
          | none =>
              have heq : (handleClientDisconnect s cid).1 = s := by
                simp [handleClientDisconnect, hcl]
              rw [heq]
              exact h
          | some client =>
              rw [handleClientDisconnect_fst s cid client hcl]
              exact forall_listErase h cid

/-- Claim C10: `sanitizeInput` is idempotent and its output contains
none of the characters it escapes; hence every stored display name and
room name, and every broadcast chat payload, is a fixed point of
sanitization. -/
theorem sanitizeInput_idempotent_and_clean :
    (∀ t : String, sanitizeInput (sanitizeInput t) = sanitizeInput t) ∧
    (∀ t : String,
      ((sanitizeInput t).data.all fun c => !(decide (specialChar c)))
        = true) ∧
    (∀ ops : List ServerOp, namesSanitized (applyOps initialState ops)) ∧
    (∀ (s : ServerState) (client : Client) (msg : WebSocketMessage),
      (handleChatMessage s client msg).Forall
        (fun p => chatPayloadSanitized p.2)) := by
  refine ⟨sanitizeInput_idem, ?_, ?_, ?_⟩
  · intro t
    rw [List.all_eq_true]
    intro c hcmem
    simp only [Bool.not_eq_true', decide_eq_false_iff_not]
    exact not_special_of_mem_sanitizeChars hcmem
  · intro ops
    refine namesSanitized_applyOps ops initialState ?_
    simp [namesSanitized, initialState]
  · intro s client msg
    unfold handleChatMessage
    by_cases hlen :
        utf16Length (sanitizeInput (orElseStr msg.message "")) > 500
    · rw [if_pos hlen]
      simp [chatPayloadSanitized]
    · rw [if_neg hlen]
      rw [List.forall_iff_forall_mem]
      intro p hp
      rw [frames_broadcastToRoom p hp]
      show sanitizeInput (sanitizeInput (orElseStr msg.message ""))
          = sanitizeInput (orElseStr msg.message "")
      exact sanitizeInput_idem _
